import Mathlib

/-!
Verification of the signal-feature extraction pipeline of `src/data_plotter.py`.

Modelling conventions (shallow embedding):
* A numpy 2D array indexed (event, sample) is a `List (List ℚ)`; exact rational
  arithmetic stands in for float64 (the spec's contracts are exact formulas).
* `np.mean(v[:, :n], axis=-1)` silently truncates the slice to the available
  samples, so the pedestal mean divides by the length of `take n`, exactly as
  numpy does.
* Python raises `ZeroDivisionError` on `1.0/0`; the `Except`-valued variants of
  the pipeline entry points make that explicit, while the plain versions are the
  unguarded arithmetic core (total in ℚ).
* `np.argmax` / `np.argmin` return the first index attaining the extremum.
* The scipy root finder (`optimize.newton` without derivative, i.e. the secant
  method) and the FITPACK spline are external library code; the root finder is
  modelled from the spec as a bounded-iteration secant loop that reports failure
  by an error value, and the spline fit is an abstract parameter.
-/

namespace DataPlotter

/-- Maximum of a list of rationals, as `np.max` over the sample axis.
`np.max` of an empty array raises; the `[]` case below is junk and every
theorem that depends on a maximum assumes the event is nonempty. -/
def listMax : List ℚ → ℚ
  | [] => 0
  | a :: as => as.foldl max a

/-- Helper for `argmaxQ`: scan the remaining samples, keeping the index of the
first occurrence of the running maximum (strict `<` keeps the earliest index,
as `np.argmax` does). -/
def argmaxAux : List ℚ → Nat → Nat → ℚ → Nat
  | [], _, best, _ => best
  | x :: xs, i, best, bv =>
      if bv < x then argmaxAux xs (i + 1) i x else argmaxAux xs (i + 1) best bv

/-- `np.argmax`: index of the first occurrence of the maximum (0 on empty). -/
def argmaxQ : List ℚ → Nat
  | [] => 0
  | a :: as => argmaxAux as 1 0 a

/-- Per-event pedestal baseline: `np.mean(v_in[:, :pedestal_length], axis=-1)`
for one event.  numpy truncates the slice to the samples that exist and
averages over however many remain. -/
def pedestalMean (ev : List ℚ) (n : Nat) : ℚ :=
  (ev.take n).sum / ((ev.take n).length : ℚ)

/-- `calculate_voltages_raw` (src/data_plotter.py:37-40): subtract the
per-event pedestal mean from every sample of that event. -/
def calculate_voltages_raw (v_in : List (List ℚ)) (pedestal_length : Nat) :
    List (List ℚ) :=
  v_in.map (fun ev => ev.map (fun x => x - pedestalMean ev pedestal_length))

/-- `calculate_voltages` (src/data_plotter.py:42-45): multiply the
pedestal-subtracted samples by `gain_post_inv = 1.0/gain_post`. -/
def calculate_voltages (v_in : List (List ℚ)) (gain_post : ℚ)
    (pedestal_length : Nat) : List (List ℚ) :=
  (calculate_voltages_raw v_in pedestal_length).map
    (fun ev => ev.map (fun x => 1 / gain_post * x))

/-- `calculate_voltages` with Python's division semantics made explicit:
the source evaluates `gain_post_inv = 1.0/gain_post` (line 43), which raises
`ZeroDivisionError` when `gain_post = 0`; otherwise the computation is the
total function `calculate_voltages`. -/
def calculate_voltagesE (v_in : List (List ℚ)) (gain_post : ℚ)
    (pedestal_length : Nat) : Except String (List (List ℚ)) :=
  if gain_post = 0 then .error "ZeroDivisionError: float division by zero"
  else .ok (calculate_voltages v_in gain_post pedestal_length)

/-- The spec's normalizer contract, written from its words: calibrated voltage
is `(raw - pedestal_mean) / gain`, with `pedestal_mean` the per-event mean of
the first `pedestal_window` samples.  Used only to compare against the
source-derived `calculate_voltages`. -/
def specNormalize (v_in : List (List ℚ)) (gain : ℚ) (pedestal_window : Nat) :
    List (List ℚ) :=
  v_in.map (fun ev => ev.map (fun x => (x - pedestalMean ev pedestal_window) / gain))

/-- Per-event peak amplitude, `np.max(v_preamp_pedsub, axis=-1)`
(src/data_plotter.py:145 and 241-243). -/
def v_pk (v : List (List ℚ)) : List ℚ := v.map listMax

/-- Composite Simpson sum over consecutive interval pairs with uniform spacing
`dx`: `dx/3 * (y[2i] + 4*y[2i+1] + y[2i+2])`.  On an even-length list the last
interval is left uncovered (scipy's `_basic_simpson(y, 0, N-3)`). -/
def simpsCore (dx : ℚ) : List ℚ → ℚ
  | a :: b :: rest =>
      match rest with
      | c :: _ => dx / 3 * (a + 4 * b + c) + simpsCore dx rest
      | [] => 0
  | _ => 0

/-- Trapezoid rule on the first interval of the list (0 when fewer than two
samples). -/
def trapFirst (dx : ℚ) : List ℚ → ℚ
  | a :: b :: _ => dx * (a + b) / 2
  | _ => 0

/-- Trapezoid rule on the last interval of the list. -/
def trapLast (dx : ℚ) (l : List ℚ) : ℚ := trapFirst dx l.reverse

/-- `scipy.integrate.simps` on the uniform grid `time = np.arange(N)*dt`:
composite Simpson when the sample count is odd; for an even count the default
`even='avg'` averages (Simpson on the first N-1 points + trapezoid on the last
interval) with (trapezoid on the first interval + Simpson on the last N-1
points).  On a uniform grid scipy's nonuniform coefficients reduce to these
exactly. -/
def simps (dx : ℚ) (ys : List ℚ) : ℚ :=
  if ys.length % 2 = 1 then simpsCore dx ys
  else (simpsCore dx ys + simpsCore dx ys.tail) / 2
        + (trapLast dx ys + trapFirst dx ys) / 2

/-- Integrand scaling and quadrature of `calculate_charge`
(src/data_plotter.py:111-116) applied to already-normalized voltages:
`integrate.simps(norm * v_preamp_pedsub, time, axis=-1)` with
`norm = charge_norm/transCond`. -/
def chargeOf (v : List (List ℚ)) (dt : ℚ) (transCond : ℚ) (charge_norm : ℚ) :
    List ℚ :=
  v.map (fun ev => simps dt (ev.map (fun x => charge_norm / transCond * x)))

/-- `calculate_charge` (src/data_plotter.py:111-116): normalize voltages, then
integrate `norm * v` over the uniform time grid per event. -/
def calculate_charge (v_in : List (List ℚ)) (dt : ℚ) (transCond : ℚ)
    (gain_post : ℚ) (pedestal_length : Nat) (charge_norm : ℚ) : List ℚ :=
  chargeOf (calculate_voltages v_in gain_post pedestal_length) dt transCond
    charge_norm

/-- Elementwise scaling of a 2D array by a constant `k`. -/
def scale2 (k : ℚ) (v : List (List ℚ)) : List (List ℚ) :=
  v.map (fun ev => ev.map (fun x => k * x))

/-- Elementwise uniform additive offset of a 2D array by a constant `c`. -/
def offset2 (c : ℚ) (v : List (List ℚ)) : List (List ℚ) :=
  v.map (fun ev => ev.map (fun x => x + c))

/-- Helper for `argminQ`, first occurrence of the minimum (as `np.argmin`). -/
def argminAux : List ℚ → Nat → Nat → ℚ → Nat
  | [], _, best, _ => best
  | x :: xs, i, best, bv =>
      if x < bv then argminAux xs (i + 1) i x else argminAux xs (i + 1) best bv

/-- `np.argmin`: index of the first occurrence of the minimum (0 on empty). -/
def argminQ : List ℚ → Nat
  | [] => 0
  | a :: as => argminAux as 1 0 a

/-- The uniform time grid `time = np.arange(m) * dt` (src/data_plotter.py:50). -/
def timeGrid (m : Nat) (dt : ℚ) : List ℚ :=
  (List.range m).map (fun i => (i : ℚ) * dt)

/-- Convergence tolerance of `scipy.optimize.newton`, `tol = 1.48e-8`. -/
def newtonTol : ℚ := 148 / 10 ^ 10

/-- One secant step `p2 = p1 - q1*(p1-p0)/(q1-q0)`; `none` when the two
function values coincide (scipy aborts the iteration there). -/
def secantStep (f : ℚ → ℚ) (p0 p1 : ℚ) : Option ℚ :=
  let q0 := f p0
  let q1 := f p1
  if q1 = q0 then none else some (p1 - q1 * (p1 - p0) / (q1 - q0))

/-- Bounded secant iteration: recursion on the remaining iteration budget, so
the search performs at most `maxiter` steps by construction and reports
non-convergence as an error value. -/
def newtonRec (f : ℚ → ℚ) (tol : ℚ) : ℚ → ℚ → Nat → Except String ℚ
  | _, _, 0 => .error "RuntimeError: failed to converge within iteration cap"
  | p0, p1, Nat.succ k =>
      match secantStep f p0 p1 with
      | none => .error "RuntimeError: secant step undefined (equal residuals)"
      | some p2 => if |p2 - p1| ≤ tol then .ok p2 else newtonRec f tol p1 p2 k

/-- Modelled from the spec: `scipy.optimize.newton` (external library code,
invoked at src/data_plotter.py:60 without a derivative, hence the secant
method) is "a bounded-iteration (cap of `maxiter` iterations) scalar
root-finder" that, on failing "to converge within the iteration cap",
propagates a root-finding-failed error to the caller.  The second starting
point is scipy's `x0*(1+1e-4) ± 1e-4`. -/
def newtonModel (f : ℚ → ℚ) (x0 : ℚ) (maxiter : Nat) : Except String ℚ :=
  let p1 := if 0 ≤ x0 then x0 * (1 + 1 / 10 ^ 4) + 1 / 10 ^ 4
            else x0 * (1 + 1 / 10 ^ 4) - 1 / 10 ^ 4
  newtonRec f newtonTol x0 p1 maxiter

/-- The root search of `calculate_tcross` for one event
(src/data_plotter.py:58-60), parameterized by the spline fit `sf`
(`InterpolatedUnivariateSpline`, external FITPACK code): evaluate the
interpolant on the grid points before the peak, take the grid time whose value
is closest to the threshold as the initial guess, and run the bounded root
finder with `maxiter=500` on `spline(x) - threshold`. -/
def tcrossSolver (sf : List ℚ → List ℚ → ℚ → ℚ) (time : List ℚ)
    (ev : List ℚ) (thr : ℚ) : Except String ℚ :=
  let spline := sf time ev
  let pre := (time.take (argmaxQ ev)).map (fun t => |spline t - thr|)
  let start := time.getD (argminQ pre) 0
  newtonModel (fun x => spline x - thr) start 500

/-- The per-event body of the loop of `calculate_tcross`
(src/data_plotter.py:55-61), parameterized by the root search `solve`: when
the peak of the normalized event is at a positive index, run the root search;
otherwise the sentinel `t0 = -1.0` is kept and no interpolation happens. -/
def tcrossEvent (solve : List ℚ → ℚ → Except String ℚ) (ev : List ℚ)
    (thr : ℚ) : Except String ℚ :=
  if 0 < argmaxQ ev then solve ev thr else .ok (-1)

/-- The Python `for` loop accumulating one result per element, where an
exception anywhere aborts the whole traversal. -/
def exceptMap (f : α → Except ε β) : List α → Except ε (List β)
  | [] => .ok []
  | a :: as =>
      match f a with
      | .error e => .error e
      | .ok b =>
          match exceptMap f as with
          | .error e => .error e
          | .ok bs => .ok (b :: bs)

/-- `calculate_tcross` (src/data_plotter.py:47-63) with the root search
abstracted: normalize the voltages, compute each event's threshold as
`np.max(v_preamp_pedsub, axis=-1) * percent_thresh`, and run the per-event
loop, any root-search exception propagating to the caller. -/
def calculate_tcrossGen (solve : List ℚ → ℚ → Except String ℚ)
    (v_in : List (List ℚ)) (percent_thresh : ℚ) (gain_post : ℚ)
    (pedestal_length : Nat) : Except String (List ℚ) :=
  let v := calculate_voltages v_in gain_post pedestal_length
  exceptMap (fun ev => tcrossEvent solve ev (listMax ev * percent_thresh)) v

/-- `calculate_tcross` (src/data_plotter.py:47-63), its root search given by
the spline fit `sf` and the bounded secant model on the time grid
`np.arange(v_in.shape[1]) * dt`. -/
def calculate_tcross (sf : List ℚ → List ℚ → ℚ → ℚ) (v_in : List (List ℚ))
    (percent_thresh : ℚ) (dt : ℚ) (gain_post : ℚ) (pedestal_length : Nat) :
    Except String (List ℚ) :=
  calculate_tcrossGen
    (fun ev thr => tcrossSolver sf (timeGrid (v_in.headD []).length dt) ev thr)
    v_in percent_thresh gain_post pedestal_length

/-- The per-channel gate of the coincidence mask
(src/data_plotter.py:241-243): per-event amplitude of the normalized channel
data above the hard-coded `0.015`, with the default pedestal window 400. -/
def chGate (d : List (List ℚ)) (gain : ℚ) : List Bool :=
  (v_pk (calculate_voltages d gain 400)).map (fun a => decide ((3 / 200 : ℚ) < a))

/-- The coincidence mask `mask = ch1 & ch2 & ch3` (src/data_plotter.py:244). -/
def coincidence_mask (d0 d1 d2 : List (List ℚ)) (g0 g1 g2 : ℚ) : List Bool :=
  List.zipWith and (List.zipWith and (chGate d0 g0) (chGate d1 g1)) (chGate d2 g2)

/-- The spec's event-selector contract, written from its words: for every
event, the logical AND over the gated channels of
`amplitude > channel_threshold`. -/
def maskSpec (t : ℚ) : List ℚ → List ℚ → List ℚ → List Bool
  | a :: as, b :: bs, c :: cs =>
      (decide (t < a) && decide (t < b) && decide (t < c)) :: maskSpec t as bs cs
  | _, _, _ => []

/-- The body of one iteration of the watch loop (src/data_plotter.py:301-305):
run `plotting_job` on each pending file in turn, adding each to the processed
set afterwards.  `plotting_job` is abstracted as `job`; there is no handler,
so an exception escapes the `for` (and the enclosing `while`), abandoning the
remaining files and the updated processed set. -/
def processBatch (job : String → Except String Unit) :
    List String → List String → Except String (List String)
  | [], processed => .ok processed
  | f :: fs, processed =>
      match job f with
      | .error e => .error e
      | .ok _ => processBatch job fs (f :: processed)

/-- `calculate_charge` with Python's division semantics on
`1.0/gain_post` made explicit (the normalizer runs first, line 112). -/
def calculate_chargeE (v_in : List (List ℚ)) (dt : ℚ) (transCond : ℚ)
    (gain_post : ℚ) (pedestal_length : Nat) (charge_norm : ℚ) :
    Except String (List ℚ) :=
  (calculate_voltagesE v_in gain_post pedestal_length).map
    (fun v => chargeOf v dt transCond charge_norm)

/-- Per-event amplitudes (`plot_amplitude`, src/data_plotter.py:143-145) with
Python's division semantics on `1.0/gain_post` made explicit. -/
def amplitudesE (d : List (List ℚ)) (gain_post : ℚ) (pedestal_length : Nat) :
    Except String (List ℚ) :=
  (calculate_voltagesE d gain_post pedestal_length).map v_pk

/-- `calculate_tcross` with Python's division semantics on `1.0/gain_post`
made explicit (the normalizer runs first, line 48). -/
def calculate_tcrossE (sf : List ℚ → List ℚ → ℚ → ℚ) (v_in : List (List ℚ))
    (percent_thresh : ℚ) (dt : ℚ) (gain_post : ℚ) (pedestal_length : Nat) :
    Except String (List ℚ) :=
  match calculate_voltagesE v_in gain_post pedestal_length with
  | .error e => .error e
  | .ok _ => calculate_tcross sf v_in percent_thresh dt gain_post pedestal_length

/-! ### Helper lemmas -/

/-- The source's `gain_post_inv * (raw - pedestal)` agrees with the spec's
`(raw - pedestal) / gain` formula (in ℚ, `1/g * x = x/g` for every `g`). -/
theorem calculate_voltages_eq_specNormalize (v : List (List ℚ)) (g : ℚ)
    (n : Nat) : calculate_voltages v g n = specNormalize v g n := by
  simp only [calculate_voltages, calculate_voltages_raw, specNormalize,
    List.map_map]
  refine List.map_congr_left (fun ev _ => ?_)
  simp only [Function.comp_apply, List.map_map]
  refine List.map_congr_left (fun x _ => ?_)
  simp [Function.comp, one_div, inv_mul_eq_div]

theorem sum_map_add_const (l : List ℚ) (c : ℚ) :
    (l.map (fun x => x + c)).sum = l.sum + l.length * c := by
  induction l with
  | nil => simp
  | cons a as ih => simp [ih]; ring

theorem sum_map_mul_const (l : List ℚ) (k : ℚ) :
    (l.map (fun x => k * x)).sum = k * l.sum := by
  induction l with
  | nil => simp
  | cons a as ih => simp [ih]; ring

/-- A uniform additive offset shifts the pedestal mean by the same amount,
provided the pedestal window holds at least one sample. -/
theorem pedestalMean_offset (ev : List ℚ) (n : Nat) (c : ℚ)
    (hne : ev.take n ≠ []) :
    pedestalMean (ev.map (fun x => x + c)) n = pedestalMean ev n + c := by
  have hlen : ((ev.take n).length : ℚ) ≠ 0 := by
    exact_mod_cast Nat.cast_ne_zero.mpr (fun h => hne (List.length_eq_zero.mp h))
  simp only [pedestalMean, ← List.map_take, sum_map_add_const, List.length_map]
  rw [add_div, mul_div_cancel_left₀ _ hlen]

/-- The pedestal mean is homogeneous. -/
theorem pedestalMean_smul (ev : List ℚ) (n : Nat) (k : ℚ) :
    pedestalMean (ev.map (fun x => k * x)) n = k * pedestalMean ev n := by
  simp only [pedestalMean, ← List.map_take, sum_map_mul_const,
    List.length_map, mul_div_assoc]

/-- The nested `zipWith and` of the per-channel gates is the spec's
pointwise three-way AND. -/
theorem zip_and_maskSpec (t : ℚ) :
    ∀ as bs cs : List ℚ,
      List.zipWith and
          (List.zipWith and (as.map fun a => decide (t < a))
            (bs.map fun b => decide (t < b)))
          (cs.map fun c => decide (t < c)) = maskSpec t as bs cs
  | [], bs, cs => by simp [maskSpec]
  | a :: as, [], cs => by simp [maskSpec]
  | a :: as, b :: bs, [] => by simp [maskSpec]
  | a :: as, b :: bs, c :: cs => by
      have ih := zip_and_maskSpec t as bs cs
      simp only [List.map_cons, List.zipWith_cons_cons, maskSpec, ih]

/-- Composite Simpson quadrature is homogeneous. -/
theorem simpsCore_smul (dx k : ℚ) :
    ∀ l : List ℚ, simpsCore dx (l.map (fun x => k * x)) = k * simpsCore dx l
  | [] => by simp [simpsCore]
  | [a] => by simp [simpsCore]
  | [a, b] => by simp [simpsCore]
  | a :: b :: c :: rest => by
      have ih := simpsCore_smul dx k (c :: rest)
      simp only [List.map_cons] at ih ⊢
      show dx / 3 * (k * a + 4 * (k * b) + k * c)
            + simpsCore dx (k * c :: rest.map (fun x => k * x))
          = k * (dx / 3 * (a + 4 * b + c) + simpsCore dx (c :: rest))
      rw [ih]
      ring

/-- The first-interval trapezoid term is homogeneous. -/
theorem trapFirst_smul (dx k : ℚ) :
    ∀ l : List ℚ, trapFirst dx (l.map (fun x => k * x)) = k * trapFirst dx l
  | [] => by simp [trapFirst]
  | [a] => by simp [trapFirst]
  | a :: b :: rest => by simp [trapFirst]; ring

/-- The last-interval trapezoid term is homogeneous. -/
theorem trapLast_smul (dx k : ℚ) (l : List ℚ) :
    trapLast dx (l.map (fun x => k * x)) = k * trapLast dx l := by
  rw [trapLast, ← List.map_reverse, trapFirst_smul, trapLast]

/-- `simps` is homogeneous, for odd and even sample counts alike. -/
theorem simps_smul (dx k : ℚ) (l : List ℚ) :
    simps dx (l.map (fun x => k * x)) = k * simps dx l := by
  rw [simps, simps, List.length_map]
  rcases Decidable.em (l.length % 2 = 1) with h | h
  · rw [if_pos h, if_pos h, simpsCore_smul]
  · rw [if_neg h, if_neg h]
    have htail : (l.map (fun x => k * x)).tail = l.tail.map (fun x => k * x) := by
      cases l <;> simp
    rw [htail, simpsCore_smul, simpsCore_smul, trapLast_smul, trapFirst_smul]
    ring

/-- The integrand scaling and quadrature of `calculate_charge` is linear in
the normalized voltages. -/
theorem chargeOf_scale (v : List (List ℚ)) (dt tc cn k : ℚ) :
    chargeOf (scale2 k v) dt tc cn = (chargeOf v dt tc cn).map (fun q => k * q) := by
  simp only [chargeOf, scale2, List.map_map]
  refine List.map_congr_left (fun ev _ => ?_)
  simp only [Function.comp_apply, List.map_map]
  have h1 : (ev.map fun x => cn / tc * (k * x))
      = (ev.map fun x => cn / tc * x).map (fun y => k * y) := by
    simp only [List.map_map]
    refine List.map_congr_left (fun x _ => ?_)
    simp only [Function.comp_apply]
    ring
  have h2 : ((fun x => cn / tc * x) ∘ fun x => k * x) = fun x => cn / tc * (k * x) := rfl
  rw [h2, h1, simps_smul]

/-- The normalizer is homogeneous in the raw samples. -/
theorem calculate_voltages_scale (v : List (List ℚ)) (k g : ℚ) (n : Nat) :
    calculate_voltages (scale2 k v) g n = scale2 k (calculate_voltages v g n) := by
  simp only [calculate_voltages, calculate_voltages_raw, scale2, List.map_map]
  refine List.map_congr_left (fun ev _ => ?_)
  simp only [Function.comp_apply, List.map_map]
  refine List.map_congr_left (fun x _ => ?_)
  simp only [Function.comp_apply, pedestalMean_smul]
  ring

/-- A uniform additive offset of the raw samples cancels against the pedestal
mean: the normalized voltages are unchanged (pedestal window nonempty). -/
theorem calculate_voltages_offset (v : List (List ℚ)) (c g : ℚ) (n : Nat)
    (hn : 0 < n) (hv : ∀ ev ∈ v, ev ≠ []) :
    calculate_voltages (offset2 c v) g n = calculate_voltages v g n := by
  simp only [calculate_voltages, calculate_voltages_raw, offset2, List.map_map]
  refine List.map_congr_left (fun ev hev => ?_)
  have hne : ev.take n ≠ [] := by
    intro h
    rcases List.take_eq_nil_iff.mp h with h0 | h0
    · exact absurd h0 (Nat.pos_iff_ne_zero.mp hn)
    · exact hv ev hev h0
  simp only [Function.comp_apply, List.map_map, pedestalMean_offset ev n c hne]
  refine List.map_congr_left (fun x _ => ?_)
  simp only [Function.comp_apply]
  ring

/-- The argmax scan never moves off `best` while the running maximum bounds
the remaining samples. -/
theorem argmaxAux_all_le (bv : ℚ) :
    ∀ (xs : List ℚ) (i best : Nat), (∀ x ∈ xs, x ≤ bv) →
      argmaxAux xs i best bv = best
  | [], _, _, _ => rfl
  | x :: xs, i, best, h => by
      have hx : x ≤ bv := h x (List.mem_cons_self x xs)
      rw [argmaxAux, if_neg (not_lt.mpr hx)]
      exact argmaxAux_all_le bv xs (i + 1) best
        (fun y hy => h y (List.mem_cons_of_mem x hy))

/-- If the first sample is a maximum of the waveform, `np.argmax` returns 0. -/
theorem argmaxQ_eq_zero_of_head_max (l : List ℚ)
    (h : ∀ x ∈ l, x ≤ l.headD 0) : argmaxQ l = 0 := by
  cases l with
  | nil => rfl
  | cons a as =>
      rw [argmaxQ]
      refine argmaxAux_all_le a as 1 0 (fun x hx => ?_)
      have := h x (List.mem_cons_of_mem a hx)
      simpa using this

/-- If the Python accumulation loop returns a full result list, every
element's computation succeeded (errors are never silently recorded). -/
theorem exceptMap_ok_mem {α ε β : Type} (f : α → Except ε β) :
    ∀ (l : List α) (out : List β), exceptMap f l = .ok out →
      ∀ a ∈ l, ∃ b, f a = .ok b := by
  intro l
  induction l with
  | nil => intro out h a ha; exact absurd ha (List.not_mem_nil a)
  | cons x xs ih =>
      intro out h a ha
      rw [exceptMap] at h
      cases hfx : f x with
      | error e => rw [hfx] at h; exact absurd h (by simp)
      | ok b =>
          rw [hfx] at h
          cases hrest : exceptMap f xs with
          | error e => rw [hrest] at h; exact absurd h (by simp)
          | ok bs =>
              rcases List.mem_cons.mp ha with rfl | hmem
              · exact ⟨b, hfx⟩
              · exact ih bs hrest a hmem

end DataPlotter

/-! ### Claims -/

/-- C2: for every event of the normalized voltages whose maximum occurs at
sample index 0 (the first sample bounds all others, so `np.argmax` is 0),
the per-event loop body of `calculate_tcross` yields the sentinel `-1.0` —
a value `≤ -0.5` — for that event, for EVERY root search `solve`: neither the
spline interpolant nor the root finder is invoked (the result does not depend
on them). -/
theorem DataPlotter.tcross_sentinel_peak_at_zero
    (solve : List ℚ → ℚ → Except String ℚ) (v_in : List (List ℚ)) (p g : ℚ)
    (n : Nat) (ev : List ℚ)
    (hev : ev ∈ DataPlotter.calculate_voltages v_in g n)
    (hmax : ∀ x ∈ ev, x ≤ ev.headD 0) :
    DataPlotter.tcrossEvent solve ev (DataPlotter.listMax ev * p) = .ok (-1) ∧
      (-1 : ℚ) ≤ -(1 / 2) := by
  constructor
  · rw [DataPlotter.tcrossEvent,
      if_neg (by rw [DataPlotter.argmaxQ_eq_zero_of_head_max ev hmax]; exact lt_irrefl 0)]
  · norm_num

/-- Witness for C2 at a concrete input: raw event `[5, 1]` normalizes to
`[2, -2]`, whose peak is at sample 0, and an always-failing root search is
never consulted. -/
theorem DataPlotter.tcross_sentinel_peak_at_zero_witness :
    ([2, -2] : List ℚ) ∈ DataPlotter.calculate_voltages [[5, 1]] 1 400 ∧
    (∀ x ∈ ([2, -2] : List ℚ), x ≤ ([2, -2] : List ℚ).headD 0) ∧
    DataPlotter.tcrossEvent (fun _ _ => .error "spline") [2, -2]
        (DataPlotter.listMax [2, -2] * (1 / 2)) = .ok (-1) := by
  have hveq : DataPlotter.calculate_voltages [[5, 1]] 1 400 = [[2, -2]] := by
    simp [DataPlotter.calculate_voltages, DataPlotter.calculate_voltages_raw,
      DataPlotter.pedestalMean]
    norm_num
  have hmem : ([2, -2] : List ℚ) ∈ DataPlotter.calculate_voltages [[5, 1]] 1 400 := by
    rw [hveq]; exact List.mem_singleton.mpr rfl
  have hle : ∀ x ∈ ([2, -2] : List ℚ), x ≤ ([2, -2] : List ℚ).headD 0 := by
    intro x hx
    rcases List.mem_cons.mp hx with rfl | hx'
    · norm_num
    · rcases List.mem_singleton.mp hx' with rfl
      norm_num
  exact ⟨hmem, hle,
    (DataPlotter.tcross_sentinel_peak_at_zero (fun _ _ => .error "spline")
      [[5, 1]] (1 / 2) 1 400 [2, -2] hmem hle).1⟩

/-- C3: the root search of `calculate_tcross` is iteration-bounded with a cap
of 500 (the solver is definitionally the bounded secant model invoked with
`maxiter = 500`, which recurses on the remaining budget); if any event's root
search fails, no value is silently recorded for it — a full result list is
returned only when every event's search succeeded, so a failure propagates as
an error to the caller — and that error is distinct from the "no peak found"
sentinel case, which never produces an error. -/
theorem DataPlotter.tcross_rootfind_bounded_propagates :
    (∀ (sf : List ℚ → List ℚ → ℚ → ℚ) (time ev : List ℚ) (thr : ℚ),
      DataPlotter.tcrossSolver sf time ev thr =
        DataPlotter.newtonModel (fun x => sf time ev x - thr)
          (time.getD
            (DataPlotter.argminQ
              ((time.take (DataPlotter.argmaxQ ev)).map
                (fun t => |sf time ev t - thr|))) 0) 500) ∧
    (∀ (solve : List ℚ → ℚ → Except String ℚ) (v_in : List (List ℚ))
        (p g : ℚ) (n : Nat) (out : List ℚ),
      DataPlotter.calculate_tcrossGen solve v_in p g n = .ok out →
      ∀ ev ∈ DataPlotter.calculate_voltages v_in g n,
        ∃ r, DataPlotter.tcrossEvent solve ev (DataPlotter.listMax ev * p) = .ok r) ∧
    (∀ (solve : List ℚ → ℚ → Except String ℚ) (ev : List ℚ) (thr : ℚ)
        (m : String),
      DataPlotter.tcrossEvent solve ev thr = .error m →
        0 < DataPlotter.argmaxQ ev) := by
  refine ⟨fun sf time ev thr => rfl, ?_, ?_⟩
  · intro solve v_in p g n out h ev hev
    exact DataPlotter.exceptMap_ok_mem _ _ out h ev hev
  · intro solve ev thr m h
    by_contra hc
    rw [DataPlotter.tcrossEvent, if_neg hc] at h
    exact absurd h (by simp)

/-- Witness for C3 at a concrete input. -/
theorem DataPlotter.tcross_rootfind_bounded_propagates_witness :
    DataPlotter.calculate_tcrossGen (fun _ _ => .error "x") [[5, 1]] (1 / 2) 1 400 =
        .ok [-1] ∧
    ([2, -2] : List ℚ) ∈ DataPlotter.calculate_voltages [[5, 1]] 1 400 ∧
    (∃ r, DataPlotter.tcrossEvent (fun _ _ => .error "x") [2, -2]
        (DataPlotter.listMax [2, -2] * (1 / 2)) = .ok r) := by
  have hveq : DataPlotter.calculate_voltages [[5, 1]] 1 400 = [[2, -2]] := by
    simp [DataPlotter.calculate_voltages, DataPlotter.calculate_voltages_raw,
      DataPlotter.pedestalMean]
    norm_num
  have hok : DataPlotter.calculate_tcrossGen (fun _ _ => .error "x")
      [[5, 1]] (1 / 2) 1 400 = .ok [-1] := by
    rw [DataPlotter.calculate_tcrossGen]
    rw [hveq]
    norm_num [DataPlotter.exceptMap, DataPlotter.tcrossEvent,
      DataPlotter.argmaxQ, DataPlotter.argmaxAux]
  have hmem : ([2, -2] : List ℚ) ∈ DataPlotter.calculate_voltages [[5, 1]] 1 400 := by
    rw [hveq]; exact List.mem_singleton.mpr rfl
  exact ⟨hok, hmem,
    DataPlotter.tcross_rootfind_bounded_propagates.2.1 (fun _ _ => .error "x")
      [[5, 1]] (1 / 2) 1 400 [-1] hok [2, -2] hmem⟩

/-- C4: for every 2D raw-sample array, pedestal-window length, and (nonzero)
post-gain factor, `calculate_voltages` returns exactly
`(raw - pedestal_mean) / gain` elementwise, where `pedestal_mean` is the
per-event arithmetic mean of the event's first `pedestal_window` samples. -/
theorem DataPlotter.voltages_match_spec_formula (v : List (List ℚ)) (g : ℚ)
    (n : Nat) (hg : g ≠ 0) :
    DataPlotter.calculate_voltagesE v g n = .ok (DataPlotter.specNormalize v g n) := by
  rw [DataPlotter.calculate_voltagesE, if_neg hg,
    DataPlotter.calculate_voltages_eq_specNormalize]

/-- Witness for C4 at a concrete input. -/
theorem DataPlotter.voltages_match_spec_formula_witness :
    (1 : ℚ) ≠ 0 ∧
      DataPlotter.calculate_voltagesE [[5, 1]] 1 400 =
        .ok (DataPlotter.specNormalize [[5, 1]] 1 400) :=
  ⟨by norm_num, DataPlotter.voltages_match_spec_formula [[5, 1]] 1 400 (by norm_num)⟩

/-- C5 (code-bug evidence): with 2 samples per event and pedestal window 3,
the normalizer does not fail; it silently averages over the 2 available
samples, returning the same result as window 2. -/
theorem DataPlotter.voltages_silent_truncation :
    DataPlotter.calculate_voltagesE [[1, 3]] 1 3 = .ok [[-1, 1]] ∧
      DataPlotter.calculate_voltages_raw [[1, 3]] 3 =
        DataPlotter.calculate_voltages_raw [[1, 3]] 2 := by
  constructor
  · rw [DataPlotter.calculate_voltagesE, if_neg (by norm_num : (1 : ℚ) ≠ 0)]
    congr 1
    simp [DataPlotter.calculate_voltages, DataPlotter.calculate_voltages_raw,
      DataPlotter.pedestalMean]
    norm_num [min_def]
  · simp [DataPlotter.calculate_voltages_raw, DataPlotter.pedestalMean]
    norm_num [min_def]

/-- C9 (code-bug evidence): the watch-loop body has no exception handler, so
a `plotting_job` failure on one file aborts the whole batch: the loop returns
the error instead of continuing, and the remaining file "c" — which would have
processed fine — is never reached (the processed-set update is discarded with
it). -/
theorem DataPlotter.watch_loop_error_propagates :
    DataPlotter.processBatch
        (fun f => if f = "b" then .error "boom" else .ok ()) ["a", "b", "c"] [] =
      .error "boom" ∧
    (fun f => if f = "b" then (.error "boom" : Except String Unit) else .ok ()) "a" = .ok () ∧
    (fun f => if f = "b" then (.error "boom" : Except String Unit) else .ok ()) "c" = .ok () := by
  refine ⟨rfl, rfl, rfl⟩

/-- C10: every normalization-dependent operation requires a nonzero post-gain
factor: the normalizer evaluates `1.0/gain_post`, which raises
`ZeroDivisionError` at `gain_post = 0`, so voltage normalization — and hence
amplitude, charge, and crossing-time extraction, which all run it first —
yields the division-by-zero error instead of a calibrated voltage, while any
nonzero gain produces the calibrated voltages. -/
theorem DataPlotter.nonzero_gain_required (v : List (List ℚ)) (n : Nat)
    (dt tc cn p : ℚ) (sf : List ℚ → List ℚ → ℚ → ℚ) :
    DataPlotter.calculate_voltagesE v 0 n =
        .error "ZeroDivisionError: float division by zero" ∧
    DataPlotter.calculate_chargeE v dt tc 0 n cn =
        .error "ZeroDivisionError: float division by zero" ∧
    DataPlotter.amplitudesE v 0 n =
        .error "ZeroDivisionError: float division by zero" ∧
    DataPlotter.calculate_tcrossE sf v p dt 0 n =
        .error "ZeroDivisionError: float division by zero" ∧
    (∀ g : ℚ, g ≠ 0 →
      DataPlotter.calculate_voltagesE v g n =
        .ok (DataPlotter.calculate_voltages v g n)) := by
  refine ⟨?_, ?_, ?_, ?_, ?_⟩
  · rw [DataPlotter.calculate_voltagesE, if_pos rfl]
  · rw [DataPlotter.calculate_chargeE, DataPlotter.calculate_voltagesE, if_pos rfl]
    rfl
  · rw [DataPlotter.amplitudesE, DataPlotter.calculate_voltagesE, if_pos rfl]
    rfl
  · rw [DataPlotter.calculate_tcrossE]
    rw [DataPlotter.calculate_voltagesE, if_pos rfl]
  · intro g hg
    rw [DataPlotter.calculate_voltagesE, if_neg hg]

/-- C6: the coincidence mask of `plotting_job` is, for every event, the
logical AND over the three gated channels of
`per-event amplitude > 0.015` (`3/200`); in particular three channels with
per-event amplitudes `0.02, 0.02, 0.001` (`1/50, 1/50, 1/1000`) and threshold
`0.015` yield mask `false` for that event. -/
theorem DataPlotter.coincidence_mask_is_and_of_thresholds :
    (∀ (d0 d1 d2 : List (List ℚ)) (g0 g1 g2 : ℚ),
      DataPlotter.coincidence_mask d0 d1 d2 g0 g1 g2 =
        DataPlotter.maskSpec (3 / 200)
          (DataPlotter.v_pk (DataPlotter.calculate_voltages d0 g0 400))
          (DataPlotter.v_pk (DataPlotter.calculate_voltages d1 g1 400))
          (DataPlotter.v_pk (DataPlotter.calculate_voltages d2 g2 400))) ∧
    DataPlotter.v_pk (DataPlotter.calculate_voltages [[0, 1/25]] 1 400) = [1/50] ∧
    DataPlotter.v_pk (DataPlotter.calculate_voltages [[0, 1/500]] 1 400) = [1/1000] ∧
    DataPlotter.coincidence_mask [[0, 1/25]] [[0, 1/25]] [[0, 1/500]] 1 1 1 = [false] := by
  refine ⟨fun d0 d1 d2 g0 g1 g2 => DataPlotter.zip_and_maskSpec _ _ _ _, ?_, ?_, ?_⟩
  · simp [DataPlotter.v_pk, DataPlotter.calculate_voltages,
      DataPlotter.calculate_voltages_raw, DataPlotter.pedestalMean,
      DataPlotter.listMax]
    norm_num
  · simp [DataPlotter.v_pk, DataPlotter.calculate_voltages,
      DataPlotter.calculate_voltages_raw, DataPlotter.pedestalMean,
      DataPlotter.listMax]
    norm_num
  · simp [DataPlotter.coincidence_mask, DataPlotter.chGate, DataPlotter.v_pk,
      DataPlotter.calculate_voltages, DataPlotter.calculate_voltages_raw,
      DataPlotter.pedestalMean, DataPlotter.listMax]
    norm_num

/-- C7: the charge extractor is linear in its input: for every input array,
sample interval, transconductance, gain, pedestal window, normalization and
constant `k`, the charge of the input scaled by `k` is exactly `k` times the
charge of the original input, event by event. -/
theorem DataPlotter.charge_linear_in_input (v : List (List ℚ))
    (dt tc g : ℚ) (n : Nat) (cn k : ℚ) :
    DataPlotter.calculate_charge (DataPlotter.scale2 k v) dt tc g n cn =
      (DataPlotter.calculate_charge v dt tc g n cn).map (fun q => k * q) := by
  rw [DataPlotter.calculate_charge, DataPlotter.calculate_voltages_scale,
    DataPlotter.chargeOf_scale, DataPlotter.calculate_charge]

/-- C8: the per-event peak amplitude of the normalized voltage is invariant
under a uniform additive offset `c` of the raw input, for every raw array with
nonempty events and positive pedestal window. -/
theorem DataPlotter.amplitude_offset_invariant (v : List (List ℚ))
    (c g : ℚ) (n : Nat) (hn : 0 < n) (hv : ∀ ev ∈ v, ev ≠ []) :
    DataPlotter.v_pk (DataPlotter.calculate_voltages (DataPlotter.offset2 c v) g n) =
      DataPlotter.v_pk (DataPlotter.calculate_voltages v g n) := by
  rw [DataPlotter.calculate_voltages_offset v c g n hn hv]

/-- Witness for C8 at a concrete input. -/
theorem DataPlotter.amplitude_offset_invariant_witness :
    0 < 400 ∧ (∀ ev ∈ [[(5 : ℚ), 1]], ev ≠ []) ∧
      DataPlotter.v_pk
          (DataPlotter.calculate_voltages (DataPlotter.offset2 7 [[5, 1]]) 1 400) =
        DataPlotter.v_pk (DataPlotter.calculate_voltages [[5, 1]] 1 400) :=
  ⟨by norm_num, by simp,
    DataPlotter.amplitude_offset_invariant [[5, 1]] 7 1 400 (by norm_num) (by simp)⟩

/-- Witness for C10 at a concrete input. -/
theorem DataPlotter.nonzero_gain_required_witness :
    DataPlotter.calculate_voltagesE [[1]] 0 1 =
        .error "ZeroDivisionError: float division by zero" ∧
    ((1 : ℚ) ≠ 0 ∧
      DataPlotter.calculate_voltagesE [[1]] 1 1 =
        .ok (DataPlotter.calculate_voltages [[1]] 1 1)) :=
  ⟨(DataPlotter.nonzero_gain_required [[1]] 1 0 0 0 0 (fun _ _ _ => 0)).1,
    by norm_num,
    (DataPlotter.nonzero_gain_required [[1]] 1 0 0 0 0 (fun _ _ _ => 0)).2.2.2.2
      1 (by norm_num)⟩
